import Mathlib

/-!
Shallow embedding of the clean-wipe-trust core modules, and proofs about the
spec's claims over that embedding.

Embedded code:
* `src/backend/src/modules/CertificateService.js` — `saveCertificate`,
  `verifyCertificate` (HMAC-signed wipe certificates, keyed file store).
* `src/unnamed/part_002` (`certificateService.js` variant) — `generateSignature`
  payload, which additionally covers the `operator` object.
* `src/backend/src/modules/WipeService.js` — `wipeDevice` safety-gate ordering,
  command resolution, progress parsing (`parseProgress`), the per-chunk
  progress callback and the one-hour timeout handler, modelled as a
  deterministic event machine (Node's event loop delivers these callbacks
  sequentially, so a linear event trace is a faithful model).
* `src/unnamed/part_003` (`wipeService.js` variant) — `startWipe` session
  orchestration and `wipeLinuxDevice` command construction.

Machine integers are modelled as `Nat` (the JS values involved are
non-negative integers well below 2^53, where JS number arithmetic is exact);
`Math.floor((a / b) * 100)` on such values is modelled as `a * 100 / b` in
`Nat`.  External crypto primitives (`crypto.createHmac(...)`) are modelled as
an explicit function parameter `hmac : String → String → String`; theorems
that need tamper-evidence assume this function is injective in its message
argument for the fixed key, which is the idealisation of a collision-free MAC.
-/

namespace CWT

/-! ## JSON serialization (JSON.stringify with no spacing argument)

`JSON.stringify(obj)` serializes an object's own enumerable string-keyed
properties in insertion order with no whitespace; strings are quoted with
`"`, `\` and `"` escaped by a backslash, the control characters BS/TAB/LF/FF/CR
by `\b`,`\t`,`\n`,`\f`,`\r`, and the remaining code points below U+0020 as
`\u00XX`; non-negative integers print as decimal digits. -/

def hexDigit (n : Nat) : Char := if n < 10 then Char.ofNat (48 + n) else Char.ofNat (87 + n)

def escapeChar (c : Char) : List Char :=
  if c = '"' then ['\\', '"']
  else if c = '\\' then ['\\', '\\']
  else if c.toNat = 8 then ['\\', 'b']
  else if c.toNat = 9 then ['\\', 't']
  else if c.toNat = 10 then ['\\', 'n']
  else if c.toNat = 12 then ['\\', 'f']
  else if c.toNat = 13 then ['\\', 'r']
  else if c.toNat < 32 then ['\\', 'u', '0', '0', hexDigit (c.toNat / 16), hexDigit (c.toNat % 16)]
  else [c]

def escapeList : List Char → List Char
  | [] => []
  | c :: cs => escapeChar c ++ escapeList cs

/-- Decimal digit character of `n < 10`. -/
def digitChar (n : Nat) : Char := Char.ofNat (48 + n)

/-- Decimal digits of `n`, most significant first, computed with explicit fuel
so that the definition is structurally recursive (kernel-evaluable). -/
def natDigitsAux : Nat → Nat → List Char
  | 0, _ => []
  | fuel + 1, n =>
    if n < 10 then [digitChar n]
    else natDigitsAux fuel (n / 10) ++ [digitChar (n % 10)]

def natDigits (n : Nat) : List Char := natDigitsAux (n + 1) n

/-- JSON string literal (quotes plus escaped body) as a character list. -/
def jsonStr (s : String) : List Char := '"' :: (escapeList s.data ++ ['"'])

/-- JSON number literal for a non-negative integer, as a character list. -/
def jsonNat (n : Nat) : List Char := natDigits n

/-! ### Left inverses, for injectivity of the serialization -/

def unhex (c : Char) : Nat := if c.toNat ≤ 57 then c.toNat - 48 else c.toNat - 87

def unesc (c : Char) : Char :=
  if c = 'b' then Char.ofNat 8
  else if c = 't' then Char.ofNat 9
  else if c = 'n' then Char.ofNat 10
  else if c = 'f' then Char.ofNat 12
  else if c = 'r' then Char.ofNat 13
  else c

def unescapeList : List Char → List Char
  | [] => []
  | c :: rest =>
    if c = '\\' then
      match rest with
      | 'u' :: '0' :: '0' :: h1 :: h2 :: r => Char.ofNat (16 * unhex h1 + unhex h2) :: unescapeList r
      | d :: r => unesc d :: unescapeList r
      | [] => []
    else c :: unescapeList rest

/-- Value of a digit list read in base 10 (parseInt on a digit string). -/
def digitsVal (l : List Char) : Nat := l.foldl (fun a c => 10 * a + (c.toNat - 48)) 0

/-! ## Data model: devices, wipe results, certificates

`Device` mirrors the records produced by `DeviceService.getDevices()`
(`src/backend/src/modules/DeviceService.js`): `id`, `name`, `path`, `size`
(bytes), `type`, `model`, `serial`, `mounted`; `adbDevice` is the flag
checked by `WipeService.wipeDevice` to divert to the Android path. -/

structure Device where
  id : String
  name : String
  path : String
  size : Nat
  type : String
  serial : String
  model : String
  mounted : Bool
  adbDevice : Bool
deriving DecidableEq, Repr

/-- Result object resolved by `WipeService.wipeDevice` on exit code 0
(`src/backend/src/modules/WipeService.js`, lines 111-122). -/
structure WipeResult where
  id : String
  deviceId : String
  success : Bool
  method : String
  passes : Nat
  duration : Nat
  hash : String
  timestamp : String
  output : String
  safetyChecksCompleted : Bool
deriving DecidableEq, Repr

/-- Host-environment values read by `CertificateService.saveCertificate`:
`os.userInfo().username`, `os.hostname()`, `os.platform()`, and
`new Date().toISOString()` at signing time. -/
structure HostEnv where
  user : String
  hostname : String
  platform : String
  now : String
deriving DecidableEq, Repr

/-- The `device` object denormalized into a certificate
(`CertificateService.saveCertificate`, lines 24-31; JS insertion order:
name, path, size, type, serial, model). -/
structure CertDevice where
  name : String
  path : String
  size : Nat
  type : String
  serial : String
  model : String
deriving DecidableEq, Repr

/-- The `wipe` object of a certificate (`saveCertificate` lines 32-38; JS
insertion order: method, passes, duration, hash, standard). -/
structure CertWipe where
  method : String
  passes : Nat
  duration : Nat
  hash : String
  standard : String
deriving DecidableEq, Repr

/-- The `operator` object of a certificate (`saveCertificate` lines 39-43). -/
structure CertOperator where
  user : String
  hostname : String
  platform : String
deriving DecidableEq, Repr

/-- The `signature` object of a certificate (`saveCertificate` lines 55-59). -/
structure CertSignature where
  algorithm : String
  value : String
  timestamp : String
deriving DecidableEq, Repr

/-- A persisted certificate record (`saveCertificate` lines 21-45). -/
structure Certificate where
  id : String
  timestamp : String
  device : CertDevice
  wipe : CertWipe
  operator : CertOperator
  signature : CertSignature
deriving DecidableEq, Repr

/-- The fixed HMAC key of `CertificateService`
(`crypto.createHmac('sha256', 'wipetrust-secret-key')`). -/
def secretKey : String := "wipetrust-secret-key"

/-- Character-level canonical payload: the exact output of
`JSON.stringify({id, timestamp, device, wipe})` on a certificate's stored
fields (`saveCertificate` lines 48-53 = `verifyCertificate` lines 116-121).
The `operator` and `signature` objects do not appear in this payload. -/
def dataToSignChars (c : Certificate) : List Char :=
  ("\x7b\"id\":").data ++ jsonStr c.id
  ++ (",\"timestamp\":").data ++ jsonStr c.timestamp
  ++ (",\"device\":\x7b\"name\":").data ++ jsonStr c.device.name
  ++ (",\"path\":").data ++ jsonStr c.device.path
  ++ (",\"size\":").data ++ jsonNat c.device.size
  ++ (",\"type\":").data ++ jsonStr c.device.type
  ++ (",\"serial\":").data ++ jsonStr c.device.serial
  ++ (",\"model\":").data ++ jsonStr c.device.model
  ++ ("\x7d,\"wipe\":\x7b\"method\":").data ++ jsonStr c.wipe.method
  ++ (",\"passes\":").data ++ jsonNat c.wipe.passes
  ++ (",\"duration\":").data ++ jsonNat c.wipe.duration
  ++ (",\"hash\":").data ++ jsonStr c.wipe.hash
  ++ (",\"standard\":").data ++ jsonStr c.wipe.standard
  ++ ("\x7d\x7d").data

/-- The string `dataToSign` of `CertificateService`. -/
def dataToSign (c : Certificate) : String := String.mk (dataToSignChars c)

/-- `CertificateService.saveCertificate(wipeResult, device)`: builds the
certificate record, signs the canonical payload with
`crypto.createHmac('sha256', 'wipetrust-secret-key')` — modelled by the
function parameter `hmac` applied to `secretKey` — and returns the record
that is persisted to `<id>.json`.  The JS code first sets `signature: null`
and then assigns the computed signature before writing; the payload does not
read the signature field, so the record is built here in two steps with a
placeholder signature. -/
def saveCertificate (hmac : String → String → String) (env : HostEnv)
    (wipeResult : WipeResult) (device : Device) : Certificate :=
  let body : Certificate :=
    { id := wipeResult.id
      timestamp := wipeResult.timestamp
      device :=
        { name := device.name
          path := device.path
          size := device.size
          type := device.type
          serial := device.serial
          model := device.model }
      wipe :=
        { method := wipeResult.method
          passes := wipeResult.passes
          duration := wipeResult.duration
          hash := wipeResult.hash
          standard := "NIST SP 800-88" }
      operator :=
        { user := env.user
          hostname := env.hostname
          platform := env.platform }
      signature := { algorithm := "", value := "", timestamp := "" } }
  { body with
      signature :=
        { algorithm := "HMAC-SHA256"
          value := hmac secretKey (dataToSign body)
          timestamp := env.now } }

/-- Result value of `CertificateService.verifyCertificate`. -/
structure VerifyResult where
  valid : Bool
  reason : String
deriving DecidableEq, Repr

/-- `CertificateService.verifyCertificate(certificateId)` (lines 107-130):
looks the certificate up in the store by id, recomputes the canonical
payload from the record's own stored fields and the expected HMAC signature,
and compares it with the stored `signature.value`.  The `store` argument
models the list returned by `getCertificates()` (the parsed contents of the
certificate directory; `getCertificates` only reads files and sorts, so a
store in which the id occurs at most once gives the same `find` result). -/
def verifyCertificate (hmac : String → String → String)
    (store : List Certificate) (certificateId : String) : VerifyResult :=
  match store.find? (fun c => c.id == certificateId) with
  | none => { valid := false, reason := "Certificate not found" }
  | some certificate =>
    if certificate.signature.value = hmac secretKey (dataToSign certificate) then
      { valid := true, reason := "Certificate is valid and tamper-proof" }
    else
      { valid := false, reason := "Invalid signature" }

/-! ### Post-issuance mutations of a stored certificate record

One constructor per leaf field of the persisted record.  `CoveredField`
lists the fields inside the signed payload `{id, timestamp, device, wipe}`;
`UncoveredField` lists the fields outside it other than `signature.value`
itself (which is the authenticator being checked, not attested content). -/

inductive CoveredField where
  | cid (v : String)
  | ctimestamp (v : String)
  | dname (v : String)
  | dpath (v : String)
  | dsize (v : Nat)
  | dtype (v : String)
  | dserial (v : String)
  | dmodel (v : String)
  | wmethod (v : String)
  | wpasses (v : Nat)
  | wduration (v : Nat)
  | whash (v : String)
  | wstandard (v : String)
deriving DecidableEq, Repr

def mutateCovered (c : Certificate) : CoveredField → Certificate
  | .cid v => { c with id := v }
  | .ctimestamp v => { c with timestamp := v }
  | .dname v => { c with device := { c.device with name := v } }
  | .dpath v => { c with device := { c.device with path := v } }
  | .dsize v => { c with device := { c.device with size := v } }
  | .dtype v => { c with device := { c.device with type := v } }
  | .dserial v => { c with device := { c.device with serial := v } }
  | .dmodel v => { c with device := { c.device with model := v } }
  | .wmethod v => { c with wipe := { c.wipe with method := v } }
  | .wpasses v => { c with wipe := { c.wipe with passes := v } }
  | .wduration v => { c with wipe := { c.wipe with duration := v } }
  | .whash v => { c with wipe := { c.wipe with hash := v } }
  | .wstandard v => { c with wipe := { c.wipe with standard := v } }

/-- The mutation actually changes the stored value. -/
def coveredChanged (c : Certificate) : CoveredField → Prop
  | .cid v => v ≠ c.id
  | .ctimestamp v => v ≠ c.timestamp
  | .dname v => v ≠ c.device.name
  | .dpath v => v ≠ c.device.path
  | .dsize v => v ≠ c.device.size
  | .dtype v => v ≠ c.device.type
  | .dserial v => v ≠ c.device.serial
  | .dmodel v => v ≠ c.device.model
  | .wmethod v => v ≠ c.wipe.method
  | .wpasses v => v ≠ c.wipe.passes
  | .wduration v => v ≠ c.wipe.duration
  | .whash v => v ≠ c.wipe.hash
  | .wstandard v => v ≠ c.wipe.standard

instance (c : Certificate) (m : CoveredField) : Decidable (coveredChanged c m) := by
  cases m <;> (unfold coveredChanged; infer_instance)

inductive UncoveredField where
  | ouser (v : String)
  | ohostname (v : String)
  | oplatform (v : String)
  | salgorithm (v : String)
  | stimestamp (v : String)
deriving DecidableEq, Repr

def mutateUncovered (c : Certificate) : UncoveredField → Certificate
  | .ouser v => { c with operator := { c.operator with user := v } }
  | .ohostname v => { c with operator := { c.operator with hostname := v } }
  | .oplatform v => { c with operator := { c.operator with platform := v } }
  | .salgorithm v => { c with signature := { c.signature with algorithm := v } }
  | .stimestamp v => { c with signature := { c.signature with timestamp := v } }

/-! ### Concrete instances used by witnesses and counterexamples -/

/-- Stand-in for the external `crypto.createHmac('sha256', key)` digest used
when a witness or counterexample needs a fully concrete, evaluable MAC; it is
injective in the message argument, which is the property the generic theorems
assume of the real HMAC. -/
def idMac : String → String → String := fun _ s => s

def demoDevice : Device :=
  { id := "dev-1"
    name := "sdb"
    path := "/dev/sdb"
    size := 16000000000
    type := "USB Device"
    serial := "SN123"
    model := "DemoDisk"
    mounted := false
    adbDevice := false }

def demoWipeResult : WipeResult :=
  { id := "cert-1"
    deviceId := "dev-1"
    success := true
    method := "nist"
    passes := 3
    duration := 1234
    hash := "abc123"
    timestamp := "2025-01-01T00:00:00.000Z"
    output := "done"
    safetyChecksCompleted := true }

def demoEnv : HostEnv :=
  { user := "root"
    hostname := "host1"
    platform := "linux"
    now := "2025-01-01T00:00:01.000Z" }

/-! ## WipeService (`src/backend/src/modules/WipeService.js`)

`wipeDevice(device, options, progressCallback)` first diverts ADB devices to
the Android path, then runs the safety gate in source order: invalid-device
check (`!device || !device.path`), path-format allowlist
(`/^\/dev\/[a-zA-Z0-9]+$/`), mounted check, removable check (a shell read of
`/sys/block/<dev>/removable`, modelled by the `removable : Bool` input), and
only then resolves the platform command and spawns it. -/

inductive Platform where
  | linux
  | win32
  | other
deriving DecidableEq, Repr

inductive WipeError where
  | invalidDevice
  | invalidPath
  | mountedDevice
  | notRemovable
  | unsupportedPlatform
  | timeout
  | commandFailed (code : Option Int)
  | spawnFailed (msg : String)
deriving DecidableEq, Repr

/-- The allowlist regex `^\/dev\/[a-zA-Z0-9]+$` on a character list: the five
characters `/dev/` followed by a non-empty run of ASCII letters/digits. -/
def devPathChars (l : List Char) : Bool :=
  decide (l.take 5 = ['/', 'd', 'e', 'v', '/']) && !(l.drop 5).isEmpty
    && (l.drop 5).all (fun c => c.isAlpha || c.isDigit)

def devPathOk (s : String) : Bool := devPathChars s.data

/-- Whether `..` occurs in a character list (path-traversal marker). -/
def hasDotDotChars : List Char → Bool
  | [] => false
  | '.' :: '.' :: _ => true
  | _ :: r => hasDotDotChars r

def hasDotDot (s : String) : Bool := hasDotDotChars s.data

/-- What `wipeDevice` reaches after its safety gate: either the ADB wipe path
(`wipeAndroidDevice`, which runs `adb` erasure commands for the device's
serial) or the `spawn(command, args)` call for the resolved erasure command.
An `Except.error` is a rejection thrown before any erasure process is
spawned; an `Except.ok` plan is executed. -/
inductive WipePlan where
  | android (serial : String)
  | spawn (command : String) (args : List String)
deriving DecidableEq, Repr

/-- The dispatch, safety gate and command resolution of `wipeDevice`
(lines 14-71), in source order.  On Linux the command is
`shred -vfz -n<min(passes,7)> <path>`; on Windows `cipher /w:C:\temp`. -/
def wipeDevicePlan (platform : Platform) (device : Device) (passes : Nat)
    (removable : Bool) : Except WipeError WipePlan :=
  if device.adbDevice then Except.ok (WipePlan.android device.serial)
  else if device.path = "" then Except.error WipeError.invalidDevice
  else if devPathOk device.path = false then Except.error WipeError.invalidPath
  else if device.mounted then Except.error WipeError.mountedDevice
  else if removable = false then Except.error WipeError.notRemovable
  else
    match platform with
    | Platform.linux =>
      Except.ok (WipePlan.spawn ("shred") ["-vfz", "-n" ++ toString (min passes 7), device.path])
    | Platform.win32 => Except.ok (WipePlan.spawn ("cipher") ["/w:C:\\temp"])
    | Platform.other => Except.error WipeError.unsupportedPlatform

/-! ### Progress parsing (`parseProgress`, lines 232-248)

The JS code tries `/pass (\d+)\/(\d+)/i` first and, when it matches, returns
`Math.floor((currentPass / totalPassesActual) * 100)`; otherwise it tries
`/(\d+)%/` and returns the matched integer; otherwise 0.  Both regexes use
leftmost-match semantics, modelled by a scan that tries each start position
in order. -/

/-- ASCII lower-casing, for the `i` regex flag. -/
def lcChar (c : Char) : Char :=
  if 65 ≤ c.toNat && c.toNat ≤ 90 then Char.ofNat (c.toNat + 32) else c

/-- Try to match `pass (\d+)\/(\d+)` (case-insensitively) at the head of the
list; returns the two matched integers. -/
def passHere (l : List Char) : Option (Nat × Nat) :=
  match l with
  | p :: a :: s1 :: s2 :: sp :: rest =>
    if lcChar p = 'p' && lcChar a = 'a' && lcChar s1 = 's' && lcChar s2 = 's' && sp = ' ' then
      match rest.span Char.isDigit with
      | (d1, r1) =>
        if d1.isEmpty then none
        else
          match r1 with
          | '/' :: r2 =>
            match r2.span Char.isDigit with
            | (d2, _) => if d2.isEmpty then none else some (digitsVal d1, digitsVal d2)
          | _ => none
    else none
  | _ => none

def findPass : List Char → Option (Nat × Nat)
  | [] => none
  | c :: rest =>
    match passHere (c :: rest) with
    | some r => some r
    | none => findPass rest

/-- Try to match `(\d+)%` at the head of the list. -/
def percentHere (l : List Char) : Option Nat :=
  match l.span Char.isDigit with
  | (d, r) =>
    if d.isEmpty then none
    else
      match r with
      | '%' :: _ => some (digitsVal d)
      | _ => none

def findPercent : List Char → Option Nat
  | [] => none
  | c :: rest =>
    match percentHere (c :: rest) with
    | some n => some n
    | none => findPercent rest

/-- `parseProgress(output, totalPasses)`.  The `totalPasses` parameter is
present in the source but unused on every path (the pass branch divides by
the total captured from the output itself).  `Math.floor((cur / tot) * 100)`
is modelled as `cur * 100 / tot` in `Nat`. -/
def parseProgress (output : String) (totalPasses : Nat) : Nat :=
  match findPass output.data with
  | some (currentPass, totalPassesActual) => currentPass * 100 / totalPassesActual
  | none =>
    match findPercent output.data with
    | some p => p
    | none => 0

/-! ### Executor event machine (`wipeDevice` Promise body, lines 44-132)

Node delivers the `data`, `close`, `error` and timer callbacks sequentially
on one event loop, so one execution is a linear trace of events processed by
a deterministic step function.  State components: accumulated `output`, the
`progress` variable, the promise settlement (`resolve`/`reject` are no-ops
once settled), whether the `setTimeout` timer is still armed (`clearTimeout`
disarms it), and whether the child process is running.  `timerFire` models
the expiry of the 3 600 000 ms timeout; its handler calls
`process.kill('SIGTERM')` — the model gives SIGTERM its default disposition,
terminating the child — and rejects with the timeout error. -/

/-- The hard wall-clock timeout, in milliseconds (line 96). -/
def timeoutMs : Nat := 3600000

inductive Settled where
  | resolvedOk
  | rejected (e : WipeError)
deriving DecidableEq, Repr

structure ExecState where
  output : List Char
  progress : Nat
  settled : Option Settled
  timerArmed : Bool
  procAlive : Bool
deriving DecidableEq, Repr

inductive ExecEvent where
  | chunk (s : String)
  | exited (code : Option Int)
  | timerFire
  | spawnError (msg : String)
deriving DecidableEq, Repr

def isChunk : ExecEvent → Bool
  | ExecEvent.chunk _ => true
  | _ => false

inductive ExecAction where
  | report (n : Nat)
  | sigterm
  | resolved
  | rejectedWith (e : WipeError)
deriving DecidableEq, Repr

def initExecState : ExecState :=
  { output := [], progress := 0, settled := none, timerArmed := true, procAlive := true }

/-- One event-handler execution, mirroring the source handlers:
`data` (stdout and stderr use identical code, lines 76-90) appends the chunk
to `output`, overwrites `progress` with `parseProgress(chunk, passes)` and
calls `progressCallback(Math.min(progress, 100))`; the timeout handler
(lines 92-96) kills the process and rejects; `close` (lines 98-126) clears
the timer and on exit code 0 reports 100 and resolves, otherwise rejects;
`error` (lines 128-131) clears the timer and rejects. -/
def execStep (passes : Nat) (st : ExecState) (e : ExecEvent) :
    ExecState × List ExecAction :=
  match e with
  | ExecEvent.chunk s =>
    let p := parseProgress s passes
    ({ st with output := st.output ++ s.data, progress := p },
      [ExecAction.report (min p 100)])
  | ExecEvent.exited code =>
    let stClosed := { st with timerArmed := false, procAlive := false }
    if code = some 0 then
      if st.settled.isNone then
        ({ stClosed with settled := some Settled.resolvedOk },
          [ExecAction.report 100, ExecAction.resolved])
      else (stClosed, [ExecAction.report 100])
    else
      if st.settled.isNone then
        ({ stClosed with settled := some (Settled.rejected (WipeError.commandFailed code)) },
          [ExecAction.rejectedWith (WipeError.commandFailed code)])
      else (stClosed, [])
  | ExecEvent.timerFire =>
    if st.timerArmed then
      let st1 := { st with timerArmed := false, procAlive := false }
      if st.settled.isNone then
        ({ st1 with settled := some (Settled.rejected WipeError.timeout) },
          [ExecAction.sigterm, ExecAction.rejectedWith WipeError.timeout])
      else (st1, [ExecAction.sigterm])
    else (st, [])
  | ExecEvent.spawnError msg =>
    let st1 := { st with timerArmed := false }
    if st.settled.isNone then
      ({ st1 with settled := some (Settled.rejected (WipeError.spawnFailed msg)) },
        [ExecAction.rejectedWith (WipeError.spawnFailed msg)])
    else (st1, [])

def execRun (passes : Nat) (st : ExecState) : List ExecEvent → ExecState × List ExecAction
  | [] => (st, [])
  | e :: rest =>
    let step := execStep passes st e
    let tail := execRun passes step.1 rest
    (tail.1, step.2 ++ tail.2)

/-- One device execution from the initial handler state. -/
def execTrace (passes : Nat) (events : List ExecEvent) : ExecState × List ExecAction :=
  execRun passes initExecState events

/-- The sequence of values passed to the progress callback. -/
def reportValues (acts : List ExecAction) : List Nat :=
  acts.filterMap (fun a =>
    match a with
    | ExecAction.report n => some n
    | _ => none)

def nondecreasing : List Nat → Bool
  | [] => true
  | [_] => true
  | a :: b :: r => decide (a ≤ b) && nondecreasing (b :: r)

/-! ## `src/unnamed/part_003` (`wipeService.js` used by `main.js`)

`startWipe(deviceIds, options)` rejects if a session is active, resets the
session state, wipes devices in submission order, then generates
certificates for the successful results inside the same `try`; any thrown
error — including a certificate-generation failure — reaches the `catch`,
which sets `phase = 'error'`, clears `isActive` and rethrows.  The
per-device wipe and the certificate call are modelled as function
parameters (`wipes`, `certIssue`) standing for `this.wipeDevice(id, options)`
and `certService.generateCertificate({...})`. -/

structure P3Result where
  success : Bool
  devicePath : String
  hash : String
deriving DecidableEq, Repr

/-- The `overallProgress` session record of part_003 (the fields the claims
concern; `startTime`/`estimatedTimeRemaining`/options are omitted).
`(completed / total) * 100` is modelled as `completed * 100 / total`. -/
structure P3Session where
  isActive : Bool
  totalDevices : Nat
  completedDevices : Nat
  currentDevice : Option String
  progressPct : Nat
  phase : String
  results : List P3Result
deriving DecidableEq, Repr

/-- The idle constructor state (part_003 lines 10-20). -/
def p3Idle : P3Session :=
  { isActive := false, totalDevices := 0, completedDevices := 0,
    currentDevice := none, progressPct := 0, phase := "idle", results := [] }

/-- The session reset at the start of `startWipe` (lines 35-48). -/
def p3Init (n : Nat) : P3Session :=
  { isActive := true, totalDevices := n, completedDevices := 0,
    currentDevice := none, progressPct := 0, phase := "starting", results := [] }

/-- The device loop (lines 53-67): on a thrown wipe error the state at the
failure point is carried to the catch handler. -/
def p3RunDevices (wipes : String → Except String P3Result) :
    List String → P3Session → Except (P3Session × String) P3Session
  | [], st => Except.ok st
  | id :: rest, st =>
    let st1 := { st with
      currentDevice := some id,
      phase := "wiping_device_" ++ toString (st.completedDevices + 1) }
    match wipes id with
    | Except.error e => Except.error (st1, e)
    | Except.ok r =>
      let st2 := { st1 with
        results := st1.results ++ [r],
        completedDevices := st1.completedDevices + 1 }
      let st3 := { st2 with
        progressPct := st2.completedDevices * 100 / st2.totalDevices }
      p3RunDevices wipes rest st3

/-- The certificate loop (lines 76-94): `generateCertificate` is awaited for
each successful result; the first thrown error propagates. -/
def p3RunCerts (certIssue : P3Result → Except String Unit) :
    List P3Result → Except String Unit
  | [] => Except.ok ()
  | r :: rest =>
    if r.success then
      match certIssue r with
      | Except.error e => Except.error e
      | Except.ok _ => p3RunCerts certIssue rest
    else p3RunCerts certIssue rest

structure P3Final where
  success : Bool
  message : String
  completedDevices : Nat
  results : List P3Result
deriving DecidableEq, Repr

/-- `startWipe` (lines 23-115): returns the final `overallProgress` state and
either the resolved value or the rethrown error. -/
def p3StartWipe (wipes : String → Except String P3Result)
    (certIssue : P3Result → Except String Unit)
    (prior : P3Session) (deviceIds : List String) :
    P3Session × Except String P3Final :=
  if prior.isActive then (prior, Except.error "Wipe operation already in progress")
  else
    match p3RunDevices wipes deviceIds (p3Init deviceIds.length) with
    | Except.error (st, e) =>
      ({ st with isActive := false, phase := "error" }, Except.error e)
    | Except.ok st1 =>
      let st2 := { st1 with phase := "generating_certificates" }
      match p3RunCerts certIssue st2.results with
      | Except.error e =>
        ({ st2 with isActive := false, phase := "error" }, Except.error e)
      | Except.ok _ =>
        let st3 := { st2 with phase := "completed", progressPct := 100, isActive := false }
        (st3, Except.ok
          { success := true
            message := "Successfully wiped " ++ toString st3.completedDevices ++ " device(s)"
            completedDevices := st3.completedDevices
            results := st3.results })

/-- Boolean character-list prefix test (kernel-evaluable form of
`String.startsWith`). -/
def isPrefixChars : List Char → List Char → Bool
  | [], _ => true
  | _ :: _, [] => false
  | a :: as, b :: bs => a == b && isPrefixChars as bs

/-- `wipeLinuxDevice` path normalisation (part_003 line 133):
`devicePath.startsWith('/dev/') ? devicePath : '/dev/' + devicePath`. -/
def p3FullPath (devicePath : String) : String :=
  if isPrefixChars (("/dev/").data) devicePath.data then devicePath
  else "/dev/" ++ devicePath

/-- The `shred` argument vector built by part_003's `wipeLinuxDevice`
(lines 136-141): `['-vfz', '-n' + passes, fullPath]` — no cap is applied to
the requested pass count. -/
def p3WipeLinuxArgs (passes : Nat) (devicePath : String) : List String :=
  ["-vfz", "-n" ++ toString passes, p3FullPath devicePath]

/-- Demo per-device wipe used by witnesses: every device wipes successfully. -/
def demoP3Wipe : String → Except String P3Result :=
  fun _ => Except.ok { success := true, devicePath := "/dev/sdb", hash := "h1" }

/-- Demo certificate issuer that fails (models a `PersistFailed` from
`certificateService.generateCertificate`). -/
def demoCertFail : P3Result → Except String Unit :=
  fun _ => Except.error "PersistFailed"


/-! ## Theorems -/

set_option maxRecDepth 16384

theorem unhex_hexDigit : ∀ n, n < 16 → unhex (hexDigit n) = n := by decide

theorem unescapeList_cons_of_ne (c : Char) (r : List Char) (h : ¬c = '\\') :
    unescapeList (c :: r) = c :: unescapeList r := by
  rw [unescapeList.eq_def]
  simp [h]

theorem unescape_escapeChar (c : Char) (r : List Char) :
    unescapeList (escapeChar c ++ r) = c :: unescapeList r := by
  unfold escapeChar
  by_cases h1 : c = '"'
  · simp [h1, unescapeList, unesc]
  by_cases h2 : c = '\\'
  · simp [h1, h2, unescapeList, unesc]
  by_cases h3 : c.toNat = 8
  · have hc : Char.ofNat 8 = c := by rw [← h3, Char.ofNat_toNat]
    simp only [h1, h2, h3, ite_true, ite_false, List.cons_append, List.nil_append]
    rw [unescapeList.eq_def]
    simp [unesc, hc]
    exact hc
  by_cases h4 : c.toNat = 9
  · have hc : Char.ofNat 9 = c := by rw [← h4, Char.ofNat_toNat]
    simp only [h1, h2, h3, h4, ite_true, ite_false, List.cons_append, List.nil_append]
    rw [unescapeList.eq_def]
    simp [unesc, hc]
    exact hc
  by_cases h5 : c.toNat = 10
  · have hc : Char.ofNat 10 = c := by rw [← h5, Char.ofNat_toNat]
    simp only [h1, h2, h3, h4, h5, ite_true, ite_false, List.cons_append, List.nil_append]
    rw [unescapeList.eq_def]
    simp [unesc, hc]
    exact hc
  by_cases h6 : c.toNat = 12
  · have hc : Char.ofNat 12 = c := by rw [← h6, Char.ofNat_toNat]
    simp only [h1, h2, h3, h4, h5, h6, ite_true, ite_false, List.cons_append, List.nil_append]
    rw [unescapeList.eq_def]
    simp [unesc, hc]
    exact hc
  by_cases h7 : c.toNat = 13
  · have hc : Char.ofNat 13 = c := by rw [← h7, Char.ofNat_toNat]
    simp only [h1, h2, h3, h4, h5, h6, h7, ite_true, ite_false, List.cons_append,
      List.nil_append]
    rw [unescapeList.eq_def]
    simp [unesc, hc]
    exact hc
  by_cases h8 : c.toNat < 32
  · have hhi : c.toNat / 16 < 16 := by omega
    have hlo : c.toNat % 16 < 16 := Nat.mod_lt _ (by omega)
    simp only [h1, h2, h3, h4, h5, h6, h7, h8, ite_true, ite_false, List.cons_append,
      List.nil_append, unescapeList]
    rw [unhex_hexDigit _ hhi, unhex_hexDigit _ hlo, Nat.div_add_mod, Char.ofNat_toNat]
  · simp only [h1, h2, h3, h4, h5, h6, h7, h8, ite_false, List.cons_append,
      List.nil_append]
    exact unescapeList_cons_of_ne c r h2

theorem unescape_escape (l : List Char) : unescapeList (escapeList l) = l := by
  induction l with
  | nil => rfl
  | cons c cs ih => rw [escapeList, unescape_escapeChar, ih]

theorem escapeList_inj {a b : List Char} (h : escapeList a = escapeList b) : a = b := by
  have := congrArg unescapeList h
  rwa [unescape_escape, unescape_escape] at this

theorem digitsVal_append_digit (l : List Char) (c : Char) :
    digitsVal (l ++ [c]) = 10 * digitsVal l + (c.toNat - 48) := by
  unfold digitsVal
  rw [List.foldl_append]
  rfl

theorem digitChar_val : ∀ n, n < 10 → (digitChar n).toNat - 48 = n := by decide

theorem digitsVal_natDigitsAux : ∀ fuel n, n < fuel → digitsVal (natDigitsAux fuel n) = n := by
  intro fuel
  induction fuel with
  | zero => omega
  | succ f ih =>
    intro n hn
    rw [natDigitsAux]
    by_cases h : n < 10
    · rw [if_pos h]
      have h0 : digitsVal [digitChar n] = 10 * 0 + ((digitChar n).toNat - 48) := rfl
      rw [h0, digitChar_val n h]
      omega
    · rw [if_neg h]
      have hdiv : n / 10 < f := by
        have h1 : n / 10 < n := Nat.div_lt_self (by omega) (by omega)
        omega
      rw [digitsVal_append_digit, ih _ hdiv, digitChar_val _ (Nat.mod_lt _ (by omega))]
      omega

theorem digitsVal_natDigits (n : Nat) : digitsVal (natDigits n) = n :=
  digitsVal_natDigitsAux (n + 1) n (Nat.lt_succ_self n)

theorem natDigits_inj {a b : Nat} (h : natDigits a = natDigits b) : a = b := by
  have := congrArg digitsVal h
  rwa [digitsVal_natDigits, digitsVal_natDigits] at this

theorem jsonStr_inj {a b : String} (h : jsonStr a = jsonStr b) : a = b := by
  unfold jsonStr at h
  simp only [List.cons.injEq, true_and] at h
  have h2 : a.data = b.data := escapeList_inj ((List.append_left_inj _).mp h)
  exact congrArg String.mk h2


/-! ### Certificate service: helper lemmas -/

theorem dataToSign_saveCertificate (hmac : String → String → String) (env : HostEnv)
    (w : WipeResult) (d : Device) :
    (saveCertificate hmac env w d).signature.value =
      hmac secretKey (dataToSign (saveCertificate hmac env w d)) := rfl

theorem verify_singleton_of_value (hmac : String → String → String)
    (c : Certificate) (i : String) (hid : c.id = i)
    (hsv : c.signature.value = hmac secretKey (dataToSign c)) :
    (verifyCertificate hmac [c] i).valid = true := by
  unfold verifyCertificate
  have hfind : ([c].find? fun x => x.id == i) = some c := by
    simp [List.find?, hid]
  rw [hfind]
  simp [hsv]

theorem verify_singleton_tampered (hmac : String → String → String)
    (hinj : ∀ s t, hmac secretKey s = hmac secretKey t → s = t)
    (c c' : Certificate) (hid : c'.id = c.id)
    (hsv : c'.signature.value = hmac secretKey (dataToSign c))
    (hne : dataToSign c' ≠ dataToSign c) :
    (verifyCertificate hmac [c'] c.id).valid = false := by
  unfold verifyCertificate
  have hfind : ([c'].find? fun x => x.id == c.id) = some c' := by
    simp [List.find?, hid]
  rw [hfind]
  have hcond : ¬ (c'.signature.value = hmac secretKey (dataToSign c')) := by
    intro h
    rw [hsv] at h
    exact hne (hinj _ _ h.symm)
  simp [hcond]

theorem dataToSign_mutate_ne (c : Certificate) (m : CoveredField)
    (h : coveredChanged c m) :
    dataToSign (mutateCovered c m) ≠ dataToSign c := by
  intro heq
  have hl : dataToSignChars (mutateCovered c m) = dataToSignChars c :=
    congrArg String.data heq
  cases m with
  | cid v =>
    simp only [coveredChanged] at h
    simp only [mutateCovered, dataToSignChars, List.append_assoc,
      List.append_right_inj, List.append_left_inj] at hl
    exact h (jsonStr_inj hl)
  | ctimestamp v =>
    simp only [coveredChanged] at h
    simp only [mutateCovered, dataToSignChars, List.append_assoc,
      List.append_right_inj, List.append_left_inj] at hl
    exact h (jsonStr_inj hl)
  | dname v =>
    simp only [coveredChanged] at h
    simp only [mutateCovered, dataToSignChars, List.append_assoc,
      List.append_right_inj, List.append_left_inj] at hl
    exact h (jsonStr_inj hl)
  | dpath v =>
    simp only [coveredChanged] at h
    simp only [mutateCovered, dataToSignChars, List.append_assoc,
      List.append_right_inj, List.append_left_inj] at hl
    exact h (jsonStr_inj hl)
  | dsize v =>
    simp only [coveredChanged] at h
    simp only [mutateCovered, dataToSignChars, List.append_assoc,
      List.append_right_inj, List.append_left_inj] at hl
    exact h (natDigits_inj hl)
  | dtype v =>
    simp only [coveredChanged] at h
    simp only [mutateCovered, dataToSignChars, List.append_assoc,
      List.append_right_inj, List.append_left_inj] at hl
    exact h (jsonStr_inj hl)
  | dserial v =>
    simp only [coveredChanged] at h
    simp only [mutateCovered, dataToSignChars, List.append_assoc,
      List.append_right_inj, List.append_left_inj] at hl
    exact h (jsonStr_inj hl)
  | dmodel v =>
    simp only [coveredChanged] at h
    simp only [mutateCovered, dataToSignChars, List.append_assoc,
      List.append_right_inj, List.append_left_inj] at hl
    exact h (jsonStr_inj hl)
  | wmethod v =>
    simp only [coveredChanged] at h
    simp only [mutateCovered, dataToSignChars, List.append_assoc,
      List.append_right_inj, List.append_left_inj] at hl
    exact h (jsonStr_inj hl)
  | wpasses v =>
    simp only [coveredChanged] at h
    simp only [mutateCovered, dataToSignChars, List.append_assoc,
      List.append_right_inj, List.append_left_inj] at hl
    exact h (natDigits_inj hl)
  | wduration v =>
    simp only [coveredChanged] at h
    simp only [mutateCovered, dataToSignChars, List.append_assoc,
      List.append_right_inj, List.append_left_inj] at hl
    exact h (natDigits_inj hl)
  | whash v =>
    simp only [coveredChanged] at h
    simp only [mutateCovered, dataToSignChars, List.append_assoc,
      List.append_right_inj, List.append_left_inj] at hl
    exact h (jsonStr_inj hl)
  | wstandard v =>
    simp only [coveredChanged] at h
    simp only [mutateCovered, dataToSignChars, List.append_assoc,
      List.append_right_inj, List.append_left_inj] at hl
    exact h (jsonStr_inj hl)

theorem verify_issued_valid (hmac : String → String → String) (env : HostEnv)
    (w : WipeResult) (d : Device) :
    (verifyCertificate hmac [saveCertificate hmac env w d]
      (saveCertificate hmac env w d).id).valid = true :=
  verify_singleton_of_value hmac _ _ rfl (dataToSign_saveCertificate hmac env w d)

theorem verify_covered_mutation_invalid (hmac : String → String → String)
    (hinj : ∀ s t, hmac secretKey s = hmac secretKey t → s = t)
    (env : HostEnv) (w : WipeResult) (d : Device) (m : CoveredField)
    (hm : coveredChanged (saveCertificate hmac env w d) m) :
    (verifyCertificate hmac [mutateCovered (saveCertificate hmac env w d) m]
      (saveCertificate hmac env w d).id).valid = false := by
  cases m with
  | cid v =>
    simp only [coveredChanged] at hm
    unfold verifyCertificate
    have hfind : (([mutateCovered (saveCertificate hmac env w d) (CoveredField.cid v)].find?
        fun x => x.id == (saveCertificate hmac env w d).id)) = none := by
      have hbeq : (v == (saveCertificate hmac env w d).id) = false :=
        beq_eq_false_iff_ne.mpr hm
      simp [List.find?, mutateCovered, hbeq]
    rw [hfind]
  | ctimestamp v =>
    exact verify_singleton_tampered hmac hinj _ _ rfl
      (dataToSign_saveCertificate hmac env w d) (dataToSign_mutate_ne _ _ hm)
  | dname v =>
    exact verify_singleton_tampered hmac hinj _ _ rfl
      (dataToSign_saveCertificate hmac env w d) (dataToSign_mutate_ne _ _ hm)
  | dpath v =>
    exact verify_singleton_tampered hmac hinj _ _ rfl
      (dataToSign_saveCertificate hmac env w d) (dataToSign_mutate_ne _ _ hm)
  | dsize v =>
    exact verify_singleton_tampered hmac hinj _ _ rfl
      (dataToSign_saveCertificate hmac env w d) (dataToSign_mutate_ne _ _ hm)
  | dtype v =>
    exact verify_singleton_tampered hmac hinj _ _ rfl
      (dataToSign_saveCertificate hmac env w d) (dataToSign_mutate_ne _ _ hm)
  | dserial v =>
    exact verify_singleton_tampered hmac hinj _ _ rfl
      (dataToSign_saveCertificate hmac env w d) (dataToSign_mutate_ne _ _ hm)
  | dmodel v =>
    exact verify_singleton_tampered hmac hinj _ _ rfl
      (dataToSign_saveCertificate hmac env w d) (dataToSign_mutate_ne _ _ hm)
  | wmethod v =>
    exact verify_singleton_tampered hmac hinj _ _ rfl
      (dataToSign_saveCertificate hmac env w d) (dataToSign_mutate_ne _ _ hm)
  | wpasses v =>
    exact verify_singleton_tampered hmac hinj _ _ rfl
      (dataToSign_saveCertificate hmac env w d) (dataToSign_mutate_ne _ _ hm)
  | wduration v =>
    exact verify_singleton_tampered hmac hinj _ _ rfl
      (dataToSign_saveCertificate hmac env w d) (dataToSign_mutate_ne _ _ hm)
  | whash v =>
    exact verify_singleton_tampered hmac hinj _ _ rfl
      (dataToSign_saveCertificate hmac env w d) (dataToSign_mutate_ne _ _ hm)
  | wstandard v =>
    exact verify_singleton_tampered hmac hinj _ _ rfl
      (dataToSign_saveCertificate hmac env w d) (dataToSign_mutate_ne _ _ hm)

theorem verify_uncovered_mutation_valid (hmac : String → String → String)
    (env : HostEnv) (w : WipeResult) (d : Device) (u : UncoveredField) :
    (verifyCertificate hmac [mutateUncovered (saveCertificate hmac env w d) u]
      (saveCertificate hmac env w d).id).valid = true := by
  cases u with
  | ouser v =>
    exact verify_singleton_of_value hmac _ _ rfl (dataToSign_saveCertificate hmac env w d)
  | ohostname v =>
    exact verify_singleton_of_value hmac _ _ rfl (dataToSign_saveCertificate hmac env w d)
  | oplatform v =>
    exact verify_singleton_of_value hmac _ _ rfl (dataToSign_saveCertificate hmac env w d)
  | salgorithm v =>
    exact verify_singleton_of_value hmac _ _ rfl (dataToSign_saveCertificate hmac env w d)
  | stimestamp v =>
    exact verify_singleton_of_value hmac _ _ rfl (dataToSign_saveCertificate hmac env w d)


/-! ### Claim C1 -/

/-- C1: a certificate issued by `saveCertificate` and persisted verifies as
Valid while the stored record is unchanged, and verifies as Invalid after
exactly one covered field (any field of the signed payload `{id, timestamp,
device, wipe}`, e.g. `device.size` or `device.serial`) has been mutated to a
different value post-issuance.  `hmac` is the external HMAC-SHA256 primitive,
assumed injective in the message for the fixed service key. -/
theorem issued_certificate_valid_and_covered_mutation_invalid
    (hmac : String → String → String)
    (hinj : ∀ s t, hmac secretKey s = hmac secretKey t → s = t)
    (env : HostEnv) (w : WipeResult) (d : Device) (m : CoveredField)
    (hm : coveredChanged (saveCertificate hmac env w d) m) :
    (verifyCertificate hmac [saveCertificate hmac env w d]
      (saveCertificate hmac env w d).id).valid = true ∧
    (verifyCertificate hmac [mutateCovered (saveCertificate hmac env w d) m]
      (saveCertificate hmac env w d).id).valid = false :=
  ⟨verify_issued_valid hmac env w d,
   verify_covered_mutation_invalid hmac hinj env w d m hm⟩

/-- Witness for C1 at concrete inputs: the serial-number mutation
`"SN123" → "TAMPERED"` on the demo certificate. -/
theorem issued_certificate_valid_and_covered_mutation_invalid_witness :
    (∀ s t, idMac secretKey s = idMac secretKey t → s = t) ∧
    coveredChanged (saveCertificate idMac demoEnv demoWipeResult demoDevice)
      (CoveredField.dserial ("TAMPERED")) ∧
    ((verifyCertificate idMac [saveCertificate idMac demoEnv demoWipeResult demoDevice]
        (saveCertificate idMac demoEnv demoWipeResult demoDevice).id).valid = true ∧
     (verifyCertificate idMac
        [mutateCovered (saveCertificate idMac demoEnv demoWipeResult demoDevice)
          (CoveredField.dserial ("TAMPERED"))]
        (saveCertificate idMac demoEnv demoWipeResult demoDevice).id).valid = false) :=
  ⟨fun _ _ h => h, by decide,
   issued_certificate_valid_and_covered_mutation_invalid idMac (fun _ _ h => h)
     demoEnv demoWipeResult demoDevice (CoveredField.dserial ("TAMPERED")) (by decide)⟩

/-! ### Claim C2 -/

/-- Counterexample to C2 as stated: in `CertificateService.js` the signed
payload is `JSON.stringify({id, timestamp, device, wipe})` — the
`operator` (issuer) object is not part of it — so mutating the stored
`operator.user` field post-issuance leaves verification returning Valid,
contradicting the claim that the signature covers the issuer fields and that
mutating them makes verification return Invalid. -/
theorem operator_mutation_leaves_certificate_valid :
    (verifyCertificate idMac
      [mutateUncovered (saveCertificate idMac demoEnv demoWipeResult demoDevice)
        (UncoveredField.ouser ("mallory"))]
      (saveCertificate idMac demoEnv demoWipeResult demoDevice).id).valid = true := by
  decide

/-- C2 as amended: in `CertificateService.js` the signature covers exactly
`{id, timestamp, device, wipe}` serialized canonically (stable insertion
order, no whitespace).  Mutating any field outside this set other than the
stored signature value itself — the operator/issuer fields and the signature
metadata — leaves verification returning Valid, and mutating any field
inside the set to a different value makes verification return Invalid. -/
theorem signature_covers_exactly_id_timestamp_device_wipe
    (hmac : String → String → String)
    (hinj : ∀ s t, hmac secretKey s = hmac secretKey t → s = t)
    (env : HostEnv) (w : WipeResult) (d : Device) :
    (∀ u : UncoveredField,
      (verifyCertificate hmac [mutateUncovered (saveCertificate hmac env w d) u]
        (saveCertificate hmac env w d).id).valid = true) ∧
    (∀ m : CoveredField, coveredChanged (saveCertificate hmac env w d) m →
      (verifyCertificate hmac [mutateCovered (saveCertificate hmac env w d) m]
        (saveCertificate hmac env w d).id).valid = false) :=
  ⟨fun u => verify_uncovered_mutation_valid hmac env w d u,
   fun m hm => verify_covered_mutation_invalid hmac hinj env w d m hm⟩

/-- Witness for the amended C2 at concrete inputs: hostname mutation stays
Valid, wipe-method mutation becomes Invalid. -/
theorem signature_covers_exactly_id_timestamp_device_wipe_witness :
    (∀ s t, idMac secretKey s = idMac secretKey t → s = t) ∧
    ((verifyCertificate idMac
        [mutateUncovered (saveCertificate idMac demoEnv demoWipeResult demoDevice)
          (UncoveredField.ohostname ("evil-host"))]
        (saveCertificate idMac demoEnv demoWipeResult demoDevice).id).valid = true ∧
     (verifyCertificate idMac
        [mutateCovered (saveCertificate idMac demoEnv demoWipeResult demoDevice)
          (CoveredField.wmethod ("gutmann"))]
        (saveCertificate idMac demoEnv demoWipeResult demoDevice).id).valid = false) :=
  ⟨fun _ _ h => h,
   (signature_covers_exactly_id_timestamp_device_wipe idMac (fun _ _ h => h)
      demoEnv demoWipeResult demoDevice).1 (UncoveredField.ohostname ("evil-host")),
   (signature_covers_exactly_id_timestamp_device_wipe idMac (fun _ _ h => h)
      demoEnv demoWipeResult demoDevice).2 (CoveredField.wmethod ("gutmann")) (by decide)⟩

/-! ### Claim C10 -/

/-- C10: `verifyCertificate` called with an id for which no record exists in
the store returns `{valid: false, reason: 'Certificate not found'}`.  The
embedding is a total pure function over the store — the source's
not-found path performs only reads and an early return, so it cannot throw
and does not write to the certificate store. -/
theorem verify_unknown_id_not_found (hmac : String → String → String)
    (store : List Certificate) (certificateId : String)
    (h : ∀ c ∈ store, c.id ≠ certificateId) :
    verifyCertificate hmac store certificateId =
      { valid := false, reason := "Certificate not found" } := by
  have hf : store.find? (fun c => c.id == certificateId) = none := by
    rw [List.find?_eq_none]
    intro x hx
    simpa using h x hx
  unfold verifyCertificate
  rw [hf]

/-- Witness for C10: a store holding one demo certificate, queried with an
absent id. -/
theorem verify_unknown_id_not_found_witness :
    (∀ c ∈ [saveCertificate idMac demoEnv demoWipeResult demoDevice],
      c.id ≠ "no-such-certificate") ∧
    verifyCertificate idMac [saveCertificate idMac demoEnv demoWipeResult demoDevice]
      ("no-such-certificate") =
      { valid := false, reason := "Certificate not found" } :=
  ⟨by decide,
   verify_unknown_id_not_found idMac
     [saveCertificate idMac demoEnv demoWipeResult demoDevice]
     ("no-such-certificate") (by decide)⟩


/-! ### Path allowlist facts -/

theorem hasDotDotChars_mem : ∀ l : List Char, hasDotDotChars l = true → '.' ∈ l := by
  intro l
  induction l with
  | nil => intro h; exact absurd h (by decide)
  | cons c r ih =>
    intro h
    by_cases hc : c = '.'
    · rw [hc]; exact List.mem_cons_self _ _
    · have hr : hasDotDotChars (c :: r) = hasDotDotChars r := by
        rw [hasDotDotChars.eq_def]
        simp [hc]
      exact List.mem_cons_of_mem _ (ih (hr ▸ h))

theorem devPathOk_no_dot (s : String) (h : devPathOk s = true) : ¬ ('.' ∈ s.data) := by
  intro hmem
  unfold devPathOk devPathChars at h
  rw [Bool.and_eq_true, Bool.and_eq_true] at h
  obtain ⟨⟨h1, _⟩, h3⟩ := h
  have h1e : s.data.take 5 = ['/', 'd', 'e', 'v', '/'] := of_decide_eq_true h1
  have hsplit : '.' ∈ s.data.take 5 ++ s.data.drop 5 := by
    rwa [List.take_append_drop]
  rcases List.mem_append.mp hsplit with hin | hin
  · rw [h1e] at hin
    exact absurd hin (by decide)
  · have hp := List.all_eq_true.mp h3 '.' hin
    exact absurd hp (by decide)

theorem devPathOk_false_of_hasDotDot (s : String) (hdd : hasDotDot s = true) :
    devPathOk s = false := by
  cases hok : devPathOk s
  · rfl
  · exact absurd (hasDotDotChars_mem _ hdd) (devPathOk_no_dot s hok)

theorem devPathOk_ne_empty (s : String) (h : devPathOk s = true) : ¬ s = "" := by
  intro h0
  rw [h0] at h
  exact absurd h (by decide)

/-! ### Claim C3 -/

/-- Counterexample to C3 as stated: a mounted device whose path fails the
format check is rejected by `wipeDevice` with the path-format error, not the
mounted error — the path allowlist check (line 24) runs before the mounted
check (line 29), so the Mounted rejection is not what happens "before
anything else" for every mounted device. -/
theorem mounted_device_bad_path_rejected_as_invalid_path :
    wipeDevicePlan Platform.linux
      { id := "d2", name := "sdb", path := "sdb", size := 1000, type := "USB Device",
        serial := "S2", model := "M2", mounted := true, adbDevice := false } 3 true =
      Except.error WipeError.invalidPath ∧
    WipeError.invalidPath ≠ WipeError.mountedDevice :=
  ⟨rfl, by decide⟩

/-- C3 as amended: for every non-ADB device with `mounted == true`,
`wipeDevice` throws before any erasure process is spawned, and the rejection
reason is Mounted exactly when the path has already passed the format
allowlist; ADB-flagged devices are diverted to the Android wipe path without
a mounted check, and path validation precedes the mounted check. -/
theorem mounted_nonadb_device_never_spawns (platform : Platform) (d : Device)
    (passes : Nat) (removable : Bool)
    (hadb : d.adbDevice = false) (hm : d.mounted = true) :
    (∃ e, wipeDevicePlan platform d passes removable = Except.error e) ∧
    (devPathOk d.path = true →
      wipeDevicePlan platform d passes removable = Except.error WipeError.mountedDevice) := by
  constructor
  · by_cases hp : d.path = ""
    · exact ⟨WipeError.invalidDevice, by unfold wipeDevicePlan; simp [hadb, hp]⟩
    · by_cases hok : devPathOk d.path = true
      · exact ⟨WipeError.mountedDevice, by unfold wipeDevicePlan; simp [hadb, hp, hok, hm]⟩
      · have hok2 : devPathOk d.path = false := by
          revert hok
          cases devPathOk d.path <;> simp
        exact ⟨WipeError.invalidPath, by unfold wipeDevicePlan; simp [hadb, hp, hok2]⟩
  · intro hok
    have hp := devPathOk_ne_empty d.path hok
    unfold wipeDevicePlan
    simp [hadb, hp, hok, hm]

/-- Witness for the amended C3 at a concrete mounted device. -/
theorem mounted_nonadb_device_never_spawns_witness :
    ({ demoDevice with mounted := true } : Device).adbDevice = false ∧
    ({ demoDevice with mounted := true } : Device).mounted = true ∧
    ((∃ e, wipeDevicePlan Platform.linux { demoDevice with mounted := true } 3 true =
        Except.error e) ∧
     (devPathOk ({ demoDevice with mounted := true } : Device).path = true →
      wipeDevicePlan Platform.linux { demoDevice with mounted := true } 3 true =
        Except.error WipeError.mountedDevice)) :=
  ⟨rfl, rfl,
   mounted_nonadb_device_never_spawns Platform.linux { demoDevice with mounted := true }
     3 true rfl rfl⟩

/-! ### Claim C5 -/

/-- Counterexample to C5 as stated: part_003's `wipeLinuxDevice` builds the
`shred` argument vector with the requested pass count uncapped, so a request
of 8 passes is invoked with `-n8`, not with exactly 7 passes. -/
theorem p3_pass_count_not_capped :
    p3WipeLinuxArgs 8 ("/dev/sdb") = ["-vfz", "-n8", "/dev/sdb"] ∧
    p3WipeLinuxArgs 8 ("/dev/sdb") ≠ ["-vfz", "-n7", "/dev/sdb"] :=
  ⟨rfl, by decide⟩

/-- C5 as amended: the backend `WipeService.js` caps the Linux pass count at
7 (`Math.min(passes, 7)`), so every request above 7 resolves to `-n7`; the
part_003 `wipeLinuxDevice` variant applies no cap and passes the requested
count through. -/
theorem backend_caps_passes_at_seven (d : Device) (passes : Nat) (removable : Bool)
    (h7 : 7 < passes) (hadb : d.adbDevice = false) (hok : devPathOk d.path = true)
    (hm : d.mounted = false) (hr : removable = true) :
    wipeDevicePlan Platform.linux d passes removable =
      Except.ok (WipePlan.spawn ("shred") ["-vfz", "-n7", d.path]) := by
  have hp := devPathOk_ne_empty d.path hok
  have hmin : min passes 7 = 7 := Nat.min_eq_right (Nat.le_of_lt h7)
  unfold wipeDevicePlan
  simp [hadb, hp, hok, hm, hr, hmin]
  decide

/-- Witness for the amended C5: 9 requested passes resolve to `-n7`. -/
theorem backend_caps_passes_at_seven_witness :
    7 < 9 ∧ demoDevice.adbDevice = false ∧ devPathOk demoDevice.path = true ∧
    demoDevice.mounted = false ∧
    wipeDevicePlan Platform.linux demoDevice 9 true =
      Except.ok (WipePlan.spawn ("shred") ["-vfz", "-n7", demoDevice.path]) :=
  ⟨by decide, rfl, by decide, rfl,
   backend_caps_passes_at_seven demoDevice 9 true (by decide) rfl (by decide) rfl rfl⟩

/-! ### Claim C7 -/

/-- Counterexample to C7 as stated: a device flagged `adbDevice` is diverted
to the Android wipe path before any path validation, so a path containing
`..` does not produce an InvalidPath rejection and erasure commands are run
for the device's serial. -/
theorem adb_device_bypasses_path_validation :
    hasDotDot ("../etc/passwd") = true ∧
    wipeDevicePlan Platform.linux
      { id := "a1", name := "Android", path := "../etc/passwd", size := 0,
        type := "Android", serial := "R58M", model := "Galaxy",
        mounted := true, adbDevice := true } 3 true =
      Except.ok (WipePlan.android ("R58M")) :=
  ⟨by decide, rfl⟩

/-- C7 as amended: for every non-ADB device with a non-empty path that
contains `..` or fails the platform allowlist `/^\/dev\/[a-zA-Z0-9]+$/`
(shell metacharacters are not in `[a-zA-Z0-9]`, so they fail it),
`wipeDevice` rejects with the path-format error before any command
resolution or spawn; an empty path is rejected as an invalid device, and
ADB-flagged devices bypass path validation entirely. -/
theorem bad_path_rejected_before_spawn (platform : Platform) (d : Device)
    (passes : Nat) (removable : Bool)
    (hadb : d.adbDevice = false) (hpath : ¬ d.path = "")
    (hbad : hasDotDot d.path = true ∨ devPathOk d.path = false) :
    wipeDevicePlan platform d passes removable = Except.error WipeError.invalidPath := by
  have hok : devPathOk d.path = false := by
    cases hbad with
    | inl hdd => exact devPathOk_false_of_hasDotDot _ hdd
    | inr h => exact h
  unfold wipeDevicePlan
  simp [hadb, hpath, hok]

/-- Witness for the amended C7: the traversal path `../etc/passwd` on a
non-ADB device. -/
theorem bad_path_rejected_before_spawn_witness :
    ({ demoDevice with path := "../etc/passwd" } : Device).adbDevice = false ∧
    ¬ ({ demoDevice with path := "../etc/passwd" } : Device).path = "" ∧
    hasDotDot ({ demoDevice with path := "../etc/passwd" } : Device).path = true ∧
    wipeDevicePlan Platform.linux { demoDevice with path := "../etc/passwd" } 3 true =
      Except.error WipeError.invalidPath :=
  ⟨rfl, by decide, by decide,
   bad_path_rejected_before_spawn Platform.linux { demoDevice with path := "../etc/passwd" }
     3 true rfl (by decide) (Or.inl (by decide))⟩


/-! ### Executor trace lemmas -/

theorem execRun_append (passes : Nat) (st : ExecState) (l1 l2 : List ExecEvent) :
    execRun passes st (l1 ++ l2) =
      ((execRun passes (execRun passes st l1).1 l2).1,
        (execRun passes st l1).2 ++ (execRun passes (execRun passes st l1).1 l2).2) := by
  induction l1 generalizing st with
  | nil => simp [execRun]
  | cons e rest ih =>
    simp [execRun, ih, List.append_assoc]

theorem execRun_chunks_actions (passes : Nat) (chunks : List String) :
    ∀ st : ExecState, (execRun passes st (chunks.map ExecEvent.chunk)).2 =
      chunks.map (fun s => ExecAction.report (min (parseProgress s passes) 100)) := by
  induction chunks with
  | nil => intro st; rfl
  | cons c rest ih =>
    intro st
    simp [execRun, execStep, ih]

theorem execRun_chunks_state (passes : Nat) (es : List ExecEvent) :
    ∀ st : ExecState, (∀ e ∈ es, isChunk e = true) →
      (execRun passes st es).1.settled = st.settled ∧
      (execRun passes st es).1.timerArmed = st.timerArmed ∧
      (execRun passes st es).1.procAlive = st.procAlive := by
  induction es with
  | nil => intro st _; exact ⟨rfl, rfl, rfl⟩
  | cons e rest ih =>
    intro st h
    have he := h e (List.mem_cons_self _ _)
    cases e with
    | chunk s =>
      have hr := ih (execStep passes st (ExecEvent.chunk s)).1
        (fun x hx => h x (List.mem_cons_of_mem _ hx))
      have hstep : (execStep passes st (ExecEvent.chunk s)).1.settled = st.settled ∧
          (execStep passes st (ExecEvent.chunk s)).1.timerArmed = st.timerArmed ∧
          (execStep passes st (ExecEvent.chunk s)).1.procAlive = st.procAlive := by
        simp [execStep]
      simp only [execRun]
      exact ⟨hr.1.trans hstep.1, hr.2.1.trans hstep.2.1, hr.2.2.trans hstep.2.2⟩
    | exited code => exact absurd he (by simp [isChunk])
    | timerFire => exact absurd he (by simp [isChunk])
    | spawnError msg => exact absurd he (by simp [isChunk])

theorem execRun_settled_persist (passes : Nat) (es : List ExecEvent) :
    ∀ (st : ExecState) (x : Settled), st.settled = some x →
      (execRun passes st es).1.settled = some x := by
  induction es with
  | nil => intro st x h; exact h
  | cons e rest ih =>
    intro st x h
    simp only [execRun]
    apply ih
    cases e with
    | chunk s => simp [execStep, h]
    | exited code =>
      simp only [execStep, h]
      split <;> simp [h]
    | timerFire =>
      simp only [execStep, h]
      split <;> simp [h]
    | spawnError msg =>
      simp only [execStep, h]
      simp [h]

theorem execRun_dead_persist (passes : Nat) (es : List ExecEvent) :
    ∀ st : ExecState, st.procAlive = false →
      (execRun passes st es).1.procAlive = false := by
  induction es with
  | nil => intro st h; exact h
  | cons e rest ih =>
    intro st h
    simp only [execRun]
    apply ih
    cases e with
    | chunk s => simp [execStep, h]
    | exited code =>
      simp only [execStep]
      split <;> (try split) <;> simp [h]
    | timerFire =>
      simp only [execStep]
      split <;> (try split) <;> simp [h]
    | spawnError msg =>
      simp only [execStep]
      split <;> simp [h]

theorem execStep_reports_le (passes : Nat) (st : ExecState) (e : ExecEvent) (n : Nat)
    (hn : n ∈ reportValues (execStep passes st e).2) : n ≤ 100 := by
  cases e with
  | chunk s =>
    simp [execStep, reportValues] at hn
    omega
  | exited code =>
    simp only [execStep] at hn
    by_cases hc : code = some 0
    · rw [if_pos hc] at hn
      by_cases hs : st.settled.isNone
      · rw [if_pos hs] at hn
        simp [reportValues] at hn
        omega
      · rw [if_neg hs] at hn
        simp [reportValues] at hn
        omega
    · rw [if_neg hc] at hn
      by_cases hs : st.settled.isNone
      · rw [if_pos hs] at hn
        exact absurd hn (by simp [reportValues])
      · rw [if_neg hs] at hn
        exact absurd hn (by simp [reportValues])
  | timerFire =>
    simp only [execStep] at hn
    split at hn
    · split at hn
      · exact absurd hn (by simp [reportValues])
      · exact absurd hn (by simp [reportValues])
    · exact absurd hn (by simp [reportValues])
  | spawnError msg =>
    simp only [execStep] at hn
    split at hn
    · exact absurd hn (by simp [reportValues])
    · exact absurd hn (by simp [reportValues])

theorem execRun_reports_le (passes : Nat) (es : List ExecEvent) :
    ∀ (st : ExecState) (n : Nat), n ∈ reportValues (execRun passes st es).2 → n ≤ 100 := by
  induction es with
  | nil =>
    intro st n hn
    exact absurd hn (by simp [execRun, reportValues])
  | cons e rest ih =>
    intro st n hn
    simp only [execRun] at hn
    unfold reportValues at hn
    rw [List.filterMap_append] at hn
    rcases List.mem_append.mp hn with hl | hr
    · exact execStep_reports_le passes st e n hl
    · exact ih _ n hr

theorem reportValues_exit_zero (passes : Nat) (st : ExecState) :
    reportValues (execRun passes st [ExecEvent.exited (some 0)]).2 = [100] := by
  cases hs : st.settled <;> simp [execRun, execStep, reportValues, hs]


/-! ### Claim C4 -/

/-- Counterexample to C4 as stated: the `data` handlers overwrite `progress`
with `parseProgress` of the current chunk alone (no running maximum), so a
chunk that matches `pass 2/3` (report 66) followed by a chunk with no
recognizable progress information (report 0) produces a strictly decreasing
pair of reports within one device execution. -/
theorem progress_reports_can_decrease :
    reportValues (execTrace 3
      [ExecEvent.chunk ("shred: /dev/sdb: pass 2/3 (random)..."),
       ExecEvent.chunk ("shred: /dev/sdb: finishing"),
       ExecEvent.exited (some 0)]).2 = [66, 0, 100] ∧
    nondecreasing [66, 0, 100] = false := by
  decide

/-- C4 as amended: within one device execution each stdout/stderr chunk
produces exactly one report equal to `min(parseProgress(chunk), 100)`, where
`parseProgress` uses the first `pass X/Y` match if there is one (taking
precedence over any bare percentage, not the higher of the two) and yields 0
when neither pattern matches; on exit code 0 a final report of 100 follows.
The sequence is not guaranteed to be monotonically non-decreasing. -/
theorem reports_are_per_chunk_parses (passes : Nat) (chunks : List String) :
    reportValues (execTrace passes
        (chunks.map ExecEvent.chunk ++ [ExecEvent.exited (some 0)])).2 =
      chunks.map (fun s => min (parseProgress s passes) 100) ++ [100] := by
  unfold execTrace
  rw [execRun_append]
  unfold reportValues
  rw [List.filterMap_append]
  rw [execRun_chunks_actions]
  have h2 := reportValues_exit_zero passes
    (execRun passes initExecState (chunks.map ExecEvent.chunk)).1
  unfold reportValues at h2
  rw [h2]
  simp only [List.filterMap_map]
  clear h2
  induction chunks with
  | nil => rfl
  | cons c cs ih => simpa [List.filterMap_cons] using ih

/-! ### Claim C6 -/

/-- C6: if the one-hour timer fires before the process has closed (the
preceding events are all output chunks), the execution rejects with the
timeout error, a SIGTERM is sent to the child, and the child process is not
running at the end of the trace (SIGTERM is modelled with its default
disposition, and `procAlive = false` persists over any later events). -/
theorem timeout_rejects_and_kills (passes : Nat) (pre post : List ExecEvent)
    (hpre : ∀ e ∈ pre, isChunk e = true) :
    ExecAction.sigterm ∈ (execTrace passes (pre ++ ExecEvent.timerFire :: post)).2 ∧
    ExecAction.rejectedWith WipeError.timeout ∈
      (execTrace passes (pre ++ ExecEvent.timerFire :: post)).2 ∧
    (execTrace passes (pre ++ ExecEvent.timerFire :: post)).1.settled =
      some (Settled.rejected WipeError.timeout) ∧
    (execTrace passes (pre ++ ExecEvent.timerFire :: post)).1.procAlive = false := by
  obtain ⟨hs, ht, _⟩ := execRun_chunks_state passes pre initExecState hpre
  have hs0 : (execRun passes initExecState pre).1.settled = none := by rw [hs]; rfl
  have ht0 : (execRun passes initExecState pre).1.timerArmed = true := by rw [ht]; rfl
  unfold execTrace
  rw [execRun_append]
  have hcons : execRun passes (execRun passes initExecState pre).1
      (ExecEvent.timerFire :: post) =
      ((execRun passes
          (execStep passes (execRun passes initExecState pre).1 ExecEvent.timerFire).1
          post).1,
        (execStep passes (execRun passes initExecState pre).1 ExecEvent.timerFire).2 ++
          (execRun passes
            (execStep passes (execRun passes initExecState pre).1 ExecEvent.timerFire).1
            post).2) := rfl
  have hstep : execStep passes (execRun passes initExecState pre).1 ExecEvent.timerFire =
      ({ (execRun passes initExecState pre).1 with
          timerArmed := false, procAlive := false,
          settled := some (Settled.rejected WipeError.timeout) },
        [ExecAction.sigterm, ExecAction.rejectedWith WipeError.timeout]) := by
    simp [execStep, ht0, hs0]
  rw [hcons, hstep]
  refine ⟨by simp, by simp, ?_, ?_⟩
  · exact execRun_settled_persist passes post _ _ rfl
  · exact execRun_dead_persist passes post _ rfl

/-- Witness for C6: one output chunk, then the timer fires, then the killed
process reports a signal close. -/
theorem timeout_rejects_and_kills_witness :
    (∀ e ∈ [ExecEvent.chunk ("shred: /dev/sdb: pass 1/3 (random)...")], isChunk e = true) ∧
    (ExecAction.sigterm ∈ (execTrace 3
        ([ExecEvent.chunk ("shred: /dev/sdb: pass 1/3 (random)...")] ++
          ExecEvent.timerFire :: [ExecEvent.exited none])).2 ∧
     ExecAction.rejectedWith WipeError.timeout ∈ (execTrace 3
        ([ExecEvent.chunk ("shred: /dev/sdb: pass 1/3 (random)...")] ++
          ExecEvent.timerFire :: [ExecEvent.exited none])).2 ∧
     (execTrace 3 ([ExecEvent.chunk ("shred: /dev/sdb: pass 1/3 (random)...")] ++
        ExecEvent.timerFire :: [ExecEvent.exited none])).1.settled =
        some (Settled.rejected WipeError.timeout) ∧
     (execTrace 3 ([ExecEvent.chunk ("shred: /dev/sdb: pass 1/3 (random)...")] ++
        ExecEvent.timerFire :: [ExecEvent.exited none])).1.procAlive = false) :=
  ⟨by decide,
   timeout_rejects_and_kills 3 [ExecEvent.chunk ("shred: /dev/sdb: pass 1/3 (random)...")]
     [ExecEvent.exited none] (by decide)⟩

/-! ### Claim C9 -/

/-- C9: every value passed to the progress callback lies in `[0, 100]` — the
parsed progress is a natural number and the handlers cap it with
`Math.min(progress, 100)` — and on a successful exit (code 0) the final
report is exactly 100. -/
theorem progress_reports_bounded (passes : Nat) (events : List ExecEvent) :
    (∀ n ∈ reportValues (execTrace passes events).2, n ≤ 100) ∧
    (reportValues (execTrace passes
        (events ++ [ExecEvent.exited (some 0)])).2).getLast? = some 100 := by
  constructor
  · intro n hn
    exact execRun_reports_le passes events initExecState n hn
  · unfold execTrace
    rw [execRun_append]
    unfold reportValues
    rw [List.filterMap_append]
    have h2 := reportValues_exit_zero passes (execRun passes initExecState events).1
    unfold reportValues at h2
    rw [h2]
    exact List.getLast?_concat _

/-- Witness for C9: the report 66 of a concrete trace is within bounds, and
the trace extended with a successful exit ends with a report of 100. -/
theorem progress_reports_bounded_witness :
    (66 ∈ reportValues (execTrace 3 [ExecEvent.chunk ("pass 2/3")]).2 ∧ 66 ≤ 100) ∧
    (reportValues (execTrace 3
        ([ExecEvent.chunk ("pass 2/3")] ++ [ExecEvent.exited (some 0)])).2).getLast? =
      some 100 :=
  ⟨⟨by decide, (progress_reports_bounded 3 [ExecEvent.chunk ("pass 2/3")]).1 66 (by decide)⟩,
   (progress_reports_bounded 3 [ExecEvent.chunk ("pass 2/3")]).2⟩


/-! ### Claim C8 -/

/-- Counterexample to C8 as stated: in part_003's `startWipe` the
certificate-generation loop runs inside the same `try` as the device loop,
so a certificate failure after a successful wipe reaches the `catch`: the
session transitions to phase `error` and the error is rethrown — a fatal
session outcome, not a non-fatal warning.  The recorded per-device result
still has `success = true`. -/
theorem cert_failure_converts_session_to_error :
    (p3StartWipe demoP3Wipe demoCertFail p3Idle ["sdb"]).1.phase = "error" ∧
    (p3StartWipe demoP3Wipe demoCertFail p3Idle ["sdb"]).2 =
      Except.error "PersistFailed" ∧
    (p3StartWipe demoP3Wipe demoCertFail p3Idle ["sdb"]).1.results.map
      P3Result.success = [true] :=
  ⟨rfl, rfl, rfl⟩

/-- C8 as amended: when every wipe succeeds and certificate issuance then
fails, the recorded `WipeOutcome.success` values remain true in the session
results, but the certification failure is fatal to the session: `startWipe`
rethrows the error and the final state has phase `error` and `isActive`
false; no non-fatal warning is recorded. -/
theorem cert_failure_after_wipes_is_fatal
    (wipes : String → Except String P3Result)
    (certIssue : P3Result → Except String Unit)
    (ids : List String) (st1 : P3Session) (e : String)
    (hrun : p3RunDevices wipes ids (p3Init ids.length) = Except.ok st1)
    (hcert : p3RunCerts certIssue st1.results = Except.error e) :
    p3StartWipe wipes certIssue p3Idle ids =
      ({ st1 with isActive := false, phase := "error" }, Except.error e) := by
  unfold p3StartWipe
  rw [if_neg (by simp [p3Idle])]
  rw [hrun]
  dsimp only
  rw [hcert]

/-- Witness for the amended C8 at concrete inputs: one device that wipes
successfully, then a failing certificate issuer. -/
theorem cert_failure_after_wipes_is_fatal_witness :
    p3RunDevices demoP3Wipe ["sdb"] (p3Init (["sdb"] : List String).length) =
      Except.ok
        { isActive := true, totalDevices := 1, completedDevices := 1,
          currentDevice := some "sdb", progressPct := 100,
          phase := "wiping_device_1",
          results := [{ success := true, devicePath := "/dev/sdb", hash := "h1" }] } ∧
    p3RunCerts demoCertFail
        ({ isActive := true, totalDevices := 1, completedDevices := 1,
           currentDevice := some "sdb", progressPct := 100,
           phase := "wiping_device_1",
           results := [{ success := true, devicePath := "/dev/sdb", hash := "h1" }] :
            P3Session }).results = Except.error "PersistFailed" ∧
    p3StartWipe demoP3Wipe demoCertFail p3Idle ["sdb"] =
      ({ isActive := false, totalDevices := 1, completedDevices := 1,
         currentDevice := some "sdb", progressPct := 100, phase := "error",
         results := [{ success := true, devicePath := "/dev/sdb", hash := "h1" }] },
        Except.error "PersistFailed") :=
  ⟨rfl, rfl,
   cert_failure_after_wipes_is_fatal demoP3Wipe demoCertFail ["sdb"]
     { isActive := true, totalDevices := 1, completedDevices := 1,
       currentDevice := some "sdb", progressPct := 100,
       phase := "wiping_device_1",
       results := [{ success := true, devicePath := "/dev/sdb", hash := "h1" }] }
     ("PersistFailed") rfl rfl⟩

end CWT
